import Mathlib

/-!
Shallow embedding of `flask_restless/search.py`: the filter-expression-to-query
compiler of Flask-Restless.  Python runtime values (as produced by JSON
deserialization) are modelled by `Py`; Python exceptions by `PyError`; all
fallible code runs in the `Res` monad.  Recursive functions of the source that
recurse through dictionaries take an explicit fuel argument (structural on the
fuel) so that every definition evaluates by kernel reduction; `.fuel` marks
exhaustion and is never a behaviour of the source.

SQLAlchemy column expressions are modelled by their matching semantics: a
compiled expression is a Boolean predicate on a row, where a row is a `Py`
dictionary mapping column names to scalar values and relationship names to a
related row (to-one) or a list of related rows (to-many).  SQL three-valued
logic is modelled through the row-matching semantics of each operator (a
comparison with NULL never matches), under which AND/OR combination of
predicates coincides with Boolean conjunction/disjunction of match sets.
-/

/-- Python values reachable from JSON input: `Py.none` is Python `None` (which
is also what JSON `null` deserializes to, and what `dict.get` returns for a
missing key). -/
inductive Py where
  | none
  | bool (b : Bool)
  | int (n : Int)
  | str (s : String)
  | list (xs : List Py)
  | dict (kvs : List (String × Py))

/-- Lookup in an association list (Python dictionaries are modelled as
association lists with distinct keys). -/
def alistFind {α : Type} : List (String × α) → String → Option α
  | [], _ => Option.none
  | (k, v) :: rest, key => if k == key then some v else alistFind rest key

/-- Python `dictionary.get(key)`: the value, or `None` when the key is absent. -/
def dictGet (kvs : List (String × Py)) (key : String) : Py :=
  (alistFind kvs key).getD .none

/-- Python `key in dictionary`. -/
def dcontains (kvs : List (String × Py)) (key : String) : Bool :=
  (alistFind kvs key).isSome

/-- Python equality on the scalar values that can reach a SQL comparison.
Deep (list/dict) equality is irrelevant to compiled predicates and is
modelled as `false`. -/
def pyEq : Py → Py → Bool
  | .none, .none => true
  | .bool a, .bool b => a == b
  | .int a, .int b => a == b
  | .str a, .str b => a == b
  | _, _ => false

/-- Python truthiness (`if x:`). -/
def pyTruthy : Py → Bool
  | .none => false
  | .bool b => b
  | .int n => n != 0
  | .str s => !s.isEmpty
  | .list xs => !xs.isEmpty
  | .dict kvs => !kvs.isEmpty

/-- The exceptions the compiled pipeline can raise, by kind.  `keyError` is
Python's `KeyError` (unknown operator / missing strict dictionary key);
`attributeError` carries the missing attribute's name; `comparisonToNull` is
the module's dedicated `ComparisonToNull` exception; `nameError` is the
`UnboundLocalError` from reading the never-assigned `submodel` variable;
`noResultFound`/`multipleResultsFound` are SQLAlchemy's single-result
exceptions. -/
inductive PyError where
  | keyError (key : Py)
  | typeError
  | valueError
  | attributeError (name : String)
  | comparisonToNull
  | nameError
  | noResultFound
  | multipleResultsFound

/-- Result of running a piece of the pipeline: a value, a raised exception, or
fuel exhaustion of the embedding (never a source behaviour). -/
inductive Res (α : Type) where
  | ok (a : α)
  | err (e : PyError)
  | fuel

def Res.bind {α β : Type} : Res α → (α → Res β) → Res β
  | .ok a, f => f a
  | .err e, _ => .err e
  | .fuel, _ => .fuel

def Res.map {α β : Type} (f : α → β) : Res α → Res β
  | .ok a => .ok (f a)
  | .err e => .err e
  | .fuel => .fuel

instance : Monad Res where
  pure := Res.ok
  bind := Res.bind
  map := Res.map

/-- Whether a result is a successfully computed value. -/
def Res.isOk {α : Type} : Res α → Bool
  | .ok _ => true
  | _ => false

/-- Effectful map over a list, stopping at the first raised exception, as a
Python list comprehension or an eagerly consumed generator does. -/
def resMapM {α β : Type} (f : α → Res β) : List α → Res (List β)
  | [] => .ok []
  | x :: xs => do
    let y ← f x
    let ys ← resMapM f xs
    pure (y :: ys)

/-- Effectful left fold (a Python `for` loop rebinding an accumulator). -/
def resFoldl {α β : Type} (f : β → α → Res β) : β → List α → Res β
  | b, [] => .ok b
  | b, x :: xs => do
    let b' ← f b x
    resFoldl f b' xs

/-- Strict Python indexing `dictionary[key]`: `KeyError` when absent. -/
def dictGetStrict (kvs : List (String × Py)) (key : String) : Res Py :=
  if dcontains kvs key then .ok (dictGet kvs key) else .err (.keyError (.str key))

/-! ## Schema reflection

The declarative models the compiler inspects with `getattr`.  A model
attribute is a plain column, a relationship (an `InstrumentedAttribute` whose
property has a mapper), an association proxy, or a plain non-mapped Python
attribute (neither `InstrumentedAttribute` nor `AssociationProxy`).  Columns
and relationships are both `InstrumentedAttribute`s on a SQLAlchemy
declarative class; only the relationship's property carries a `mapper`. -/

inductive AttrKind where
  | column
  | relationship (target : String)
  | assocProxy (target : String)
  | plain

/-- A resolved model attribute: its name together with its kind. -/
structure Attrib where
  name : String
  kind : AttrKind

/-- A declarative model: its attributes in declaration order, and its
primary-key column names in declaration order. -/
structure ModelDef where
  attrs : List (String × AttrKind)
  pks : List String

/-- The reflectable schema: models by name. -/
abbrev Schema := List (String × ModelDef)

/-- Python `getattr(model, name)` for a string name: `AttributeError` when the
model has no such attribute. -/
def getattrS (schema : Schema) (model : String) (name : String) : Res Attrib :=
  match alistFind schema model with
  | Option.none => .err (.attributeError name)
  | some md =>
    match alistFind md.attrs name with
    | Option.none => .err (.attributeError name)
    | some k => .ok ⟨name, k⟩

/-- Python `getattr(model, name)` where the name is a runtime value:
`getattr` raises `TypeError` unless the attribute name is a string. -/
def getattrPy (schema : Schema) (model : String) (name : Py) : Res Attrib :=
  match name with
  | .str s => getattrS schema model s
  | _ => .err .typeError

/-! ## Operator semantics

Each `OPERATORS` entry of the source is a lambda building a SQLAlchemy
expression from the field (and argument).  An expression is modelled by its
row-matching semantics.  `f == None` / `f != None` are SQLAlchemy's
`IS NULL` / `IS NOT NULL`; a comparison whose operands include NULL (or are of
incomparable types) never matches, as in SQL. -/

/-- Rows are `Py` dictionaries; a missing column reads as NULL. -/
def rowGet (row : Py) (name : String) : Py :=
  match row with
  | .dict kvs => dictGet kvs name
  | _ => .none

/-- SQL ordering comparison on scalars: only values of the same comparable
type are ordered; NULL is ordered with nothing. -/
def pyCompare : Py → Py → Option Ordering
  | .int a, .int b => some (compare a b)
  | .str a, .str b => some (compare a b)
  | _, _ => Option.none

/-- SQL `LIKE` pattern matching over characters: `%` matches any run, `_` any
single character (escape sequences are not modelled; no claim involves them). -/
def likeMatch : List Char → List Char → Bool
  | [], s => s.isEmpty
  | '%' :: ps, [] => likeMatch ps []
  | '%' :: ps, c :: s => likeMatch ps (c :: s) || likeMatch ('%' :: ps) s
  | '_' :: _, [] => false
  | '_' :: ps, _ :: s => likeMatch ps s
  | _ :: _, [] => false
  | p :: ps, c :: s => p == c && likeMatch ps s
termination_by p s => (s.length, p.length)

/-- Semantics of `f == a` (SQLAlchemy turns `== None` into `IS NULL`). -/
def sqlEqSem (f a : Py) : Bool := pyEq f a

/-- Semantics of `f != a` (`IS NOT NULL` when `a` is `None`; otherwise a SQL
`<>`, which a NULL field value never satisfies). -/
def sqlNeSem (f a : Py) : Bool :=
  if pyEq a .none then !pyEq f .none else !pyEq f .none && !pyEq f a

def sqlGtSem (f a : Py) : Bool := pyCompare f a == some .gt

def sqlLtSem (f a : Py) : Bool := pyCompare f a == some .lt

def sqlGeSem (f a : Py) : Bool :=
  pyCompare f a == some .gt || pyCompare f a == some .eq

def sqlLeSem (f a : Py) : Bool :=
  pyCompare f a == some .lt || pyCompare f a == some .eq

def sqlLikeSem (f a : Py) : Bool :=
  match f, a with
  | .str s, .str p => likeMatch p.toList s.toList
  | _, _ => false

def sqlIlikeSem (f a : Py) : Bool :=
  match f, a with
  | .str s, .str p => likeMatch p.toLower.toList s.toLower.toList
  | _, _ => false

def sqlInSem (f a : Py) : Bool :=
  match a with
  | .list xs => !pyEq f .none && xs.any (pyEq f)
  | _ => false

def sqlNotInSem (f a : Py) : Bool :=
  match a with
  | .list xs => !pyEq f .none && !xs.any (pyEq f)
  | _ => false

/-- An `OPERATORS` entry, tagged by its arity as `inspect.getargspec` discovers
it in the source: unary and binary entries carry the matching semantics of the
expression they build; the two ternary entries (`has`, `any`) invoke
`_sub_operator` and are dispatched in `create_operation`. -/
inductive OpFunc where
  | unary (sem : Py → Bool)
  | binary (sem : Py → Py → Bool)
  | hasOp
  | anyOp

/-- The operator table of the source, in source order.  Synonyms are separate
entries whose lambdas are textually identical in the source; they are
translated to the same semantics here. -/
def OPERATORS : List (String × OpFunc) := [
  ("is_null", .unary (fun f => sqlEqSem f .none)),
  ("is_not_null", .unary (fun f => sqlNeSem f .none)),
  ("==", .binary sqlEqSem),
  ("eq", .binary sqlEqSem),
  ("equals", .binary sqlEqSem),
  ("equal_to", .binary sqlEqSem),
  ("!=", .binary sqlNeSem),
  ("ne", .binary sqlNeSem),
  ("neq", .binary sqlNeSem),
  ("not_equal_to", .binary sqlNeSem),
  ("does_not_equal", .binary sqlNeSem),
  (">", .binary sqlGtSem),
  ("gt", .binary sqlGtSem),
  ("<", .binary sqlLtSem),
  ("lt", .binary sqlLtSem),
  (">=", .binary sqlGeSem),
  ("ge", .binary sqlGeSem),
  ("gte", .binary sqlGeSem),
  ("geq", .binary sqlGeSem),
  ("<=", .binary sqlLeSem),
  ("le", .binary sqlLeSem),
  ("lte", .binary sqlLeSem),
  ("leq", .binary sqlLeSem),
  ("ilike", .binary sqlIlikeSem),
  ("like", .binary sqlLikeSem),
  ("in", .binary sqlInSem),
  ("not_in", .binary sqlNotInSem),
  ("has", .hasOp),
  ("any", .anyOp)]

/-- Python `OPERATORS[operator]`: `KeyError` for a hashable key not in the
table (including `None`), `TypeError` for an unhashable key. -/
def opLookup : Py → Res OpFunc
  | .str s =>
    match alistFind OPERATORS s with
    | some f => .ok f
    | Option.none => .err (.keyError (.str s))
  | .list _ => .err .typeError
  | .dict _ => .err .typeError
  | other => .err (.keyError other)

/-- A compiled expression: its matching semantics on a row. -/
abbrev Pred := Py → Bool

/-- The right-hand side handed to an operator: a literal Python value from the
filter's `val`, or a model attribute resolved from the filter's `field`
(field-to-field comparison). -/
inductive Arg where
  | py (v : Py)
  | attr (a : Attrib)

/-- The value an argument denotes on a given row: a literal denotes itself, a
field reference reads that field of the row. -/
def resolveArg (row : Py) : Arg → Py
  | .py v => v
  | .attr a => rowGet row a.name

/-- Python `argument is None`: a resolved field reference is never `None`. -/
def argIsNone : Arg → Bool
  | .py .none => true
  | _ => false

/-! ## Field-path splitting on the relation delimiter -/

/-- Whether a string contains the double-underscore relation delimiter. -/
def strContains (s pat : String) : Bool := decide (pat.toList <:+: s.toList)

/-- Python tuple unpacking `a, b = parts`: `ValueError` unless there are
exactly two parts. -/
def unpack2 : List String → Res (String × String)
  | [a, b] => .ok (a, b)
  | _ => .err .valueError

/-- Python `'__' in x` for a runtime value: substring test on a string, key
membership on a dictionary, element membership on a list, `TypeError`
otherwise (in particular for `None`, a missing filter name). -/
def pyContainsDunder : Py → Res Bool
  | .str s => .ok (strContains s "__")
  | .dict kvs => .ok (dcontains kvs "__")
  | .list xs => .ok (xs.any (fun x => pyEq x (.str "__")))
  | _ => .err .typeError

/-- Splitting a character list at every (non-overlapping, leftmost-first)
occurrence of the two-character separator `c1 c2`, as Python
`str.split('__')` does. -/
def charSplit2 (c1 c2 : Char) : List Char → List (List Char)
  | [] => [[]]
  | [a] => [[a]]
  | a :: b :: rest =>
    if a == c1 && b == c2 then [] :: charSplit2 c1 c2 rest
    else
      match charSplit2 c1 c2 (b :: rest) with
      | [] => [[a]]
      | p :: ps => (a :: p) :: ps

/-- Splitting a character list at every occurrence of the single-character
separator `c`, as Python `str.split('.')` does. -/
def charSplit1 (c : Char) : List Char → List (List Char)
  | [] => [[]]
  | a :: rest =>
    if a == c then [] :: charSplit1 c rest
    else
      match charSplit1 c rest with
      | [] => [[a]]
      | p :: ps => (a :: p) :: ps

/-- Python `s.split('__')`. -/
def splitDunder (s : String) : List String :=
  (charSplit2 '_' '_' s.toList).map List.asString

/-- Python `s.split('.')`. -/
def splitDot (s : String) : List String :=
  (charSplit1 '.' s.toList).map List.asString

/-- Python `x.split('__')` unpacked into two names: reached only when the
delimiter test was true, so a non-string here means the value had no `split`
attribute (it was a dictionary or list). -/
def pySplitDunder : Py → Res (String × String)
  | .str s => unpack2 (splitDunder s)
  | _ => .err (.attributeError "split")

/-! ## The filter tree (`Filter`, `ConjunctionFilter`, `DisjunctionFilter`) -/

/-- The parsed filter tree.  `filt` is the source's `Filter` (a named tuple of
`fieldname`, `operator`, `argument`, `otherfield`, each a raw Python value);
`conj`/`disj` are `ConjunctionFilter`/`DisjunctionFilter`, junction filters
holding their subfilters in order. -/
inductive PFilter where
  | filt (fieldname operator argument otherfield : Py)
  | conj (subs : List PFilter)
  | disj (subs : List PFilter)

/-- Modelled from the spec: `string_to_datetime` lives in `helpers.py`, which
is not among the provided sources.  Per the specification (value coercion,
section 4.2), values for fields whose declared type is not temporal "pass
through unchanged (deferred to the underlying query layer)"; temporal parsing
applies only to temporal field types, and no model in this development
declares a temporal field type, so the coercion is the identity. -/
def string_to_datetime (_model : String) (_fieldname : Py) (argument : Py) : Py :=
  argument

/-- The source's `Filter.from_dictionary`: the base case (no `'or'`/`'and'`
key) reads `name`/`op`/`field` with `.get` (so a missing key yields `None`)
and coerces `val`; a dictionary with an `'or'` key recurses into a
`DisjunctionFilter` (checked first, so it wins when both keys are present);
otherwise an `'and'` key gives a `ConjunctionFilter`.  Iterating a non-list of
subfilters, or reading `.get` off a non-dictionary input, raises as Python
does: a string or list input (and any string iterated out of a non-empty
string or dictionary of subfilters) has no `.get`, hence `AttributeError`; a
scalar input is not a container, hence `TypeError`. -/
def from_dictionary (model : String) : Nat → Py → Res PFilter
  | 0, _ => .fuel
  | n + 1, .dict d =>
    if !dcontains d "or" && !dcontains d "and" then
      let fieldname := dictGet d "name"
      let operator := dictGet d "op"
      let otherfield := dictGet d "field"
      let argument := string_to_datetime model fieldname (dictGet d "val")
      .ok (.filt fieldname operator argument otherfield)
    else if dcontains d "or" then
      match dictGet d "or" with
      | .list subs => (resMapM (from_dictionary model n) subs).map PFilter.disj
      | .str s => if s.isEmpty then .ok (.disj []) else .err (.attributeError "get")
      | .dict kvs => if kvs.isEmpty then .ok (.disj []) else .err (.attributeError "get")
      | _ => .err .typeError
    else
      match dictGet d "and" with
      | .list subs => (resMapM (from_dictionary model n) subs).map PFilter.conj
      | .str s => if s.isEmpty then .ok (.conj []) else .err (.attributeError "get")
      | .dict kvs => if kvs.isEmpty then .ok (.conj []) else .err (.attributeError "get")
      | _ => .err .typeError
  | _ + 1, .str _ => .err (.attributeError "get")
  | _ + 1, .list _ => .err (.attributeError "get")
  | _ + 1, _ => .err .typeError

/-! ## `_sub_operator` and `QueryBuilder._create_operation` -/

/-- The source's `_sub_operator(model, argument, fieldname)`, for the `has` and
`any` operations.  `model` here is the field object the outer operator was
applied to.  The classification mirrors the source: an `InstrumentedAttribute`
takes `model.property.mapper.class_` — for a relationship that is the related
model, but for a plain column the `ColumnProperty` has no `mapper`, so an
`AttributeError` is raised; an `AssociationProxy` resolves to its target model
(`get_related_association_proxy_model`, modelled from the spec's
schema-reflection interface since `helpers.py` is not among the sources);
anything else falls through the `if`/`elif` with `submodel` never assigned, so
the later read of `submodel` raises `UnboundLocalError` (`nameError` here).
A dictionary argument is parsed recursively (`name` and `op` read strictly,
`val` with `.get`, the name split on `'__'` into field and relation) and
handed back to `_create_operation` via `recurse`, which the caller instantiates
with `create_operation` at the remaining fuel; any other argument is the
legacy form `getattr(submodel, fieldname) == argument`. -/
def sub_operator (schema : Schema)
    (recurse : String → Py → Py → Arg → Py → Res Pred)
    (model : Attrib) (argument : Arg) (fieldname : Py) : Res Pred := do
  let submodel? ← match model.kind with
    | .column => Res.err (.attributeError "mapper")
    | .relationship t => Res.ok (some t)
    | .assocProxy t => Res.ok (some t)
    | .plain => Res.ok Option.none
  match argument with
  | .py (.dict d) => do
    let subfieldname ← dictGetStrict d "name"
    let suboperator ← dictGetStrict d "op"
    let subargument := dictGet d "val"
    let c ← pyContainsDunder subfieldname
    let (fieldname2, relation) ←
      if c then do
        let (f, r) ← pySplitDunder subfieldname
        Res.ok (Py.str f, Py.str r)
      else Res.ok (subfieldname, Py.none)
    match submodel? with
    | some submodel => recurse submodel fieldname2 suboperator (.py subargument) relation
    | Option.none => .err .nameError
  | _ =>
    match submodel? with
    | some submodel => do
      let attr ← getattrPy schema submodel fieldname
      pure (fun row => sqlEqSem (rowGet row attr.name) (resolveArg row argument))
    | Option.none => .err .nameError

/-- The source's `QueryBuilder._create_operation(model, fieldname, operator,
argument, relation)`.  In source order: the operator is looked up in
`OPERATORS` (`KeyError` when unknown); its arity is discovered (here, the
`OpFunc` tag); the field is `getattr(model, relation or fieldname)`
(`AttributeError` when absent, with Python `or`-truthiness on `relation`);
a unary operator is applied immediately (any supplied argument is ignored);
otherwise a `None` argument raises `ComparisonToNull`; a binary operator is
applied to field and argument; a ternary operator (`has`/`any`) builds the
nested predicate through `_sub_operator` and wraps it in an existence test
over the related row(s). -/
def create_operation (schema : Schema) : Nat → String → Py → Py → Arg → Py → Res Pred
  | 0, _, _, _, _, _ => .fuel
  | n + 1, model, fieldname, operator, argument, relation => do
    let opfunc ← opLookup operator
    let field ← getattrPy schema model
      (if pyTruthy relation then relation else fieldname)
    match opfunc with
    | .unary sem => pure (fun row => sem (rowGet row field.name))
    | .binary sem =>
      if argIsNone argument then .err .comparisonToNull
      else pure (fun row => sem (rowGet row field.name) (resolveArg row argument))
    | .hasOp =>
      if argIsNone argument then .err .comparisonToNull
      else do
        let sub ← sub_operator schema (create_operation schema n) field argument fieldname
        pure (fun row =>
          match rowGet row field.name with
          | .dict kvs => sub (.dict kvs)
          | _ => false)
    | .anyOp =>
      if argIsNone argument then .err .comparisonToNull
      else do
        let sub ← sub_operator schema (create_operation schema n) field argument fieldname
        pure (fun row =>
          match rowGet row field.name with
          | .list xs => xs.any sub
          | _ => false)

/-- The source's `QueryBuilder._create_filter(model, filt)`.  A leaf filter
splits its field name on `'__'` (relation first, then field — note the order
is the reverse of `_sub_operator`'s); a truthy `otherfield` replaces the
argument by the resolved other attribute of the same model; the result is
handed to `_create_operation`.  A junction filter compiles every subfilter and
combines them with `and_` (conjunction of match sets) or `or_` (disjunction),
with errors propagating out of the eagerly consumed generator. -/
def create_filter (schema : Schema) : Nat → String → PFilter → Res Pred
  | 0, _, _ => .fuel
  | n + 1, model, .filt fieldname operator argument otherfield => do
    let c ← pyContainsDunder fieldname
    let (relation, fname) ←
      if c then do
        let (r, f) ← pySplitDunder fieldname
        Res.ok (Py.str r, Py.str f)
      else Res.ok (Py.none, fieldname)
    let val ←
      if pyTruthy otherfield then do
        let a ← getattrPy schema model otherfield
        Res.ok (Arg.attr a)
      else Res.ok (Arg.py argument)
    create_operation schema n model fname operator val relation
  | n + 1, model, .conj subs => do
    let ps ← resMapM (create_filter schema n model) subs
    pure (fun row => ps.all (fun p => p row))
  | n + 1, model, .disj subs => do
    let ps ← resMapM (create_filter schema n model) subs
    pure (fun row => ps.any (fun p => p row))

/-! ## The composed query (`create_query`, `search`)

The composed query object is the external query-construction collaborator's
state: the base row set plus the accumulated filter predicates, ordering
clauses, grouping clauses and joins, exactly the calls `create_query` issues
on it. -/

/-- One `order_by` clause: the model whose field is ordered on, the field
name, and the direction (`true` for ascending). -/
structure OrderClause where
  onModel : String
  field : String
  ascending : Bool

/-- The composed, not-yet-executed query. -/
structure Query where
  model : String
  rows : List Py
  preds : List Pred
  order : List OrderClause
  groups : List (String × String)
  joins : List String

/-- The data source: for each model name, the rows the session holds. -/
abbrev Session := List (String × List Py)

/-- Modelled from the spec: `session_query` lives in `helpers.py`, which is
not among the provided sources.  It is the `base_query(model)` capability of
the spec's external query-construction interface (section 6): the base
composed query over all of the model's rows, with nothing accumulated. -/
def session_query (session : Session) (model : String) : Query :=
  { model := model, rows := (alistFind session model).getD [],
    preds := [], order := [], groups := [], joins := [] }

/-- Modelled from the spec: `primary_key_names` lives in `helpers.py`, which
is not among the provided sources.  It is the spec's
`primary_key_field_names(model)` (section 6): the ordered sequence of the
model's primary-key column names, here the schema's declaration-ordered `pks`
list. -/
def primary_key_names (schema : Schema) (model : String) : List String :=
  ((alistFind schema model).map ModelDef.pks).getD []

/-- Modelled from the spec: `get_related_model` lives in `helpers.py`, which
is not among the provided sources.  It is the spec's
`related_model(model, relation_name)` (section 6): the model related through
the named relationship or association proxy; resolution fails for a name that
is not a relation. -/
def get_related_model (schema : Schema) (model : String) (relname : String) : Res String := do
  let a ← getattrS schema model relname
  match a.kind with
  | .relationship t => .ok t
  | .assocProxy t => .ok t
  | _ => .err (.attributeError relname)

/-- One iteration of `create_query`'s sort loop: direction is ascending
exactly when the symbol is `'+'`; a dotted field path is split in two
(`ValueError` on more than one dot), resolved through the related model, which
is joined before the ordering clause is applied; otherwise the field is
resolved on the model itself. -/
def applySortClause (schema : Schema) (q : Query) : Py × Py → Res Query
  | (symbol, fieldNamePy) => do
    let ascending := pyEq symbol (.str "+")
    match fieldNamePy with
    | .str field_name =>
      if strContains field_name "." then do
        let (f1, f2) ← unpack2 (splitDot field_name)
        let relation_model ← get_related_model schema q.model f1
        let field ← getattrS schema relation_model f2
        Res.ok { q with joins := q.joins ++ [relation_model],
                        order := q.order ++ [⟨relation_model, field.name, ascending⟩] }
      else do
        let field ← getattrS schema q.model field_name
        Res.ok { q with order := q.order ++ [⟨q.model, field.name, ascending⟩] }
    | _ => .err .typeError

/-- One iteration of `create_query`'s group-by loop, resolving dotted paths
exactly as the sort loop does. -/
def applyGroupClause (schema : Schema) (q : Query) : Py → Res Query
  | .str field_name =>
    if strContains field_name "." then do
      let (f1, f2) ← unpack2 (splitDot field_name)
      let relation_model ← get_related_model schema q.model f1
      let field ← getattrS schema relation_model f2
      Res.ok { q with joins := q.joins ++ [relation_model],
                      groups := q.groups ++ [(relation_model, field.name)] }
    else do
      let field ← getattrS schema q.model field_name
      Res.ok { q with groups := q.groups ++ [(q.model, field.name)] }
  | _ => .err .typeError

/-- The source's `QueryBuilder.create_query(session, model, filters, sort,
group_by, _ignore_order_by)`.  In source order: every filter specification is
parsed by `Filter.from_dictionary` and compiled by `_create_filter`, and all
resulting predicates are applied together (`query.filter(*filters)`, the
implicit conjunction); then, unless `_ignore_order_by` is set, the sort loop
runs — or, when no sort is requested (`if sort:` is falsy for `None` and for
the empty list), an ascending ordering clause is applied for each primary-key
column in declaration order; finally the group-by loop runs. -/
def create_query (schema : Schema) (fuel : Nat) (session : Session) (model : String)
    (filters : List Py) (sort : List (Py × Py)) (group_by : List Py)
    (ignore_order_by : Bool) : Res Query := do
  let query := session_query session model
  let filts ← resMapM (from_dictionary model fuel) filters
  let preds ← resMapM (create_filter schema fuel model) filts
  let query := { query with preds := query.preds ++ preds }
  let query ←
    if !ignore_order_by then
      if !sort.isEmpty then
        resFoldl (applySortClause schema) query sort
      else do
        let pks := primary_key_names schema model
        let clauses ← resMapM
          (fun f => (getattrS schema model f).map (fun a => OrderClause.mk model a.name true))
          pks
        Res.ok { query with order := query.order ++ clauses }
    else Res.ok query
  resFoldl (applyGroupClause schema) query group_by

/-- Whether a row satisfies every accumulated filter predicate of the query. -/
def Query.sat (q : Query) (row : Py) : Bool :=
  q.preds.all (fun p => p row)

/-- The rows the composed query matches (the materialized result set). -/
def Query.results (q : Query) : List Py :=
  q.rows.filter q.sat

/-- Modelled external collaborator: SQLAlchemy's `query.one()` (the spec's
section 6 interface), which fails distinctly on zero matches
(`NoResultFound`) and on more than one match (`MultipleResultsFound`). -/
def Query.one (q : Query) : Res Py :=
  match q.results with
  | [] => .err .noResultFound
  | [r] => .ok r
  | _ => .err .multipleResultsFound

/-- What `search` returns: a single entity in single-result mode, the composed
query otherwise. -/
inductive SearchOut where
  | entity (row : Py)
  | query (q : Query)

/-- The source's `search(session, model, filters, sort, group_by, single,
_ignore_order_by)`: build the composed query with `create_query`, then
materialize exactly one result when `single` is set, and return the composed
query itself otherwise. -/
def search (schema : Schema) (fuel : Nat) (session : Session) (model : String)
    (filters : List Py) (sort : List (Py × Py)) (group_by : List Py)
    (single : Bool) (ignore_order_by : Bool) : Res SearchOut := do
  let query ← create_query schema fuel session model filters sort group_by ignore_order_by
  if single then (query.one).map SearchOut.entity
  else pure (.query query)

/-! ## Helpers for stating the claims -/

/-- The per-filter compilation pipeline of `create_query`: parse one filter
specification, then compile it to a predicate. -/
def compileSpec (schema : Schema) (fuel : Nat) (model : String) (p : Py) : Res Pred := do
  let f ← from_dictionary model fuel p
  create_filter schema fuel model f

/-- The predicate of a successful compilation (the never-matching predicate
for a failed one; used only to state semantics of results known to be `ok`). -/
def predOf : Res Pred → Pred
  | .ok p => p
  | _ => fun _ => false

/-! ## Basic lemmas about the result monad -/

@[simp] theorem Res.bind_ok_left {α β : Type} (a : α) (g : α → Res β) :
    Res.bind (.ok a) g = g a := rfl

@[simp] theorem Res.bind_err_left {α β : Type} (e : PyError) (g : α → Res β) :
    Res.bind (.err e) g = .err e := rfl

@[simp] theorem Res.bind_fuel_left {α β : Type} (g : α → Res β) :
    Res.bind (.fuel : Res α) g = .fuel := rfl

@[simp] theorem Res.bind_eq {α β : Type} (x : Res α) (g : α → Res β) :
    x >>= g = Res.bind x g := rfl

@[simp] theorem Res.pure_eq {α : Type} (a : α) : (pure a : Res α) = .ok a := rfl

@[simp] theorem Res.map_eq {α β : Type} (f : α → β) (x : Res α) :
    f <$> x = Res.map f x := rfl

@[simp] theorem Res.map_ok {α β : Type} (f : α → β) (a : α) :
    Res.map f (.ok a) = .ok (f a) := rfl

@[simp] theorem Res.map_err {α β : Type} (f : α → β) (e : PyError) :
    Res.map f (.err e : Res α) = .err e := rfl

theorem Res.bind_eq_ok {α β : Type} {x : Res α} {g : α → Res β} {c : β} :
    Res.bind x g = .ok c ↔ ∃ a, x = .ok a ∧ g a = .ok c := by
  cases x <;> simp [Res.bind]

theorem Res.map_eq_ok {α β : Type} {f : α → β} {x : Res α} {c : β} :
    Res.map f x = .ok c ↔ ∃ a, x = .ok a ∧ f a = c := by
  cases x <;> simp [Res.map, eq_comm]

theorem Res.isOk_iff {α : Type} {x : Res α} : x.isOk = true ↔ ∃ a, x = .ok a := by
  cases x <;> simp [Res.isOk]

theorem Res.isOk_bind {α β : Type} {x : Res α} {g : α → Res β} :
    (Res.bind x g).isOk = true ↔ ∃ a, x = .ok a ∧ (g a).isOk = true := by
  cases x <;> simp [Res.bind, Res.isOk]

/-! ## Lemmas about effectful list traversal -/

theorem resMapM_forall₂ {α β : Type} {f : α → Res β} :
    ∀ {xs : List α} {ys : List β}, resMapM f xs = .ok ys →
      List.Forall₂ (fun x y => f x = .ok y) xs ys := by
  intro xs
  induction xs with
  | nil => intro ys h; simp [resMapM] at h; subst h; exact List.Forall₂.nil
  | cons x xs ih =>
    intro ys h
    simp only [resMapM, Res.bind_eq, Res.pure_eq] at h
    rw [Res.bind_eq_ok] at h
    obtain ⟨y, hy, h⟩ := h
    rw [Res.bind_eq_ok] at h
    obtain ⟨ys', hys, h⟩ := h
    cases h
    exact List.Forall₂.cons hy (ih hys)

theorem resMapM_ok_of_forall {α β : Type} {f : α → Res β} :
    ∀ {xs : List α}, (∀ x ∈ xs, (f x).isOk = true) →
      ∃ ys, resMapM f xs = .ok ys := by
  intro xs
  induction xs with
  | nil => intro _; exact ⟨[], rfl⟩
  | cons x xs ih =>
    intro h
    obtain ⟨y, hy⟩ := Res.isOk_iff.mp (h x (by simp))
    obtain ⟨ys, hys⟩ := ih (fun z hz => h z (by simp [hz]))
    exact ⟨y :: ys, by simp [resMapM, hy, hys, Res.bind]⟩

theorem forall₂_of_two_mapM {α β γ : Type} {f : α → Res β} {g : β → Res γ} :
    ∀ {xs : List α} {ys : List β} {zs : List γ},
      resMapM f xs = .ok ys → resMapM g ys = .ok zs →
      List.Forall₂ (fun x z => Res.bind (f x) g = .ok z) xs zs := by
  intro xs
  induction xs with
  | nil =>
    intro ys zs h1 h2
    simp [resMapM] at h1; subst h1
    simp [resMapM] at h2; subst h2
    exact List.Forall₂.nil
  | cons x xs ih =>
    intro ys zs h1 h2
    simp only [resMapM, Res.bind_eq, Res.pure_eq] at h1
    rw [Res.bind_eq_ok] at h1
    obtain ⟨y, hy, h1⟩ := h1
    rw [Res.bind_eq_ok] at h1
    obtain ⟨ys', hys, h1⟩ := h1
    cases h1
    simp only [resMapM, Res.bind_eq, Res.pure_eq] at h2
    rw [Res.bind_eq_ok] at h2
    obtain ⟨z, hz, h2⟩ := h2
    rw [Res.bind_eq_ok] at h2
    obtain ⟨zs', hzs, h2⟩ := h2
    cases h2
    exact List.Forall₂.cons (by rw [Res.bind_eq_ok]; exact ⟨y, hy, hz⟩) (ih hys hzs)

theorem all_of_forall₂ {α : Type} {h : α → Res Pred} :
    ∀ {xs : List α} {ps : List Pred},
      List.Forall₂ (fun x p => h x = .ok p) xs ps → ∀ row,
      ps.all (fun p => p row) = xs.all (fun x => predOf (h x) row) := by
  intro xs ps hf
  induction hf with
  | nil => intro row; rfl
  | cons hxy _ ih =>
    intro row
    simp only [List.all_cons, ih row]
    rw [hxy]
    rfl

theorem any_of_forall₂ {α : Type} {h : α → Res Pred} :
    ∀ {xs : List α} {ps : List Pred},
      List.Forall₂ (fun x p => h x = .ok p) xs ps → ∀ row,
      ps.any (fun p => p row) = xs.any (fun x => predOf (h x) row) := by
  intro xs ps hf
  induction hf with
  | nil => intro row; rfl
  | cons hxy _ ih =>
    intro row
    simp only [List.any_cons, ih row]
    rw [hxy]
    rfl

theorem resFoldl_preserve {α γ : Type} {f : Query → α → Res Query} {π : Query → γ}
    (hf : ∀ q x q', f q x = .ok q' → π q' = π q) :
    ∀ {xs : List α} {q q' : Query}, resFoldl f q xs = .ok q' → π q' = π q := by
  intro xs
  induction xs with
  | nil => intro q q' h; simp [resFoldl] at h; subst h; rfl
  | cons x xs ih =>
    intro q q' h
    simp only [resFoldl, Res.bind_eq] at h
    rw [Res.bind_eq_ok] at h
    obtain ⟨q1, hq1, h⟩ := h
    rw [ih h, hf q x q1 hq1]

/-! ## Structural lemmas about the query-building steps -/

theorem getattrS_name {schema : Schema} {model f : String} {a : Attrib}
    (h : getattrS schema model f = .ok a) : a.name = f := by
  unfold getattrS at h
  split at h
  · cases h
  · split at h
    · cases h
    · cases h; rfl

theorem applySortClause_keeps {schema : Schema} {q : Query} {c : Py × Py} {q' : Query}
    (h : applySortClause schema q c = .ok q') :
    q'.model = q.model ∧ q'.rows = q.rows ∧ q'.preds = q.preds := by
  obtain ⟨sym, fn⟩ := c
  cases fn with
  | str s =>
    simp only [applySortClause, Res.bind_eq] at h
    split at h
    · rw [Res.bind_eq_ok] at h
      obtain ⟨fs, _, h⟩ := h
      obtain ⟨f1, f2⟩ := fs
      simp only [Res.bind_eq] at h
      rw [Res.bind_eq_ok] at h
      obtain ⟨rm, _, h⟩ := h
      rw [Res.bind_eq_ok] at h
      obtain ⟨fd, _, h⟩ := h
      cases h
      exact ⟨rfl, rfl, rfl⟩
    · rw [Res.bind_eq_ok] at h
      obtain ⟨fd, _, h⟩ := h
      cases h
      exact ⟨rfl, rfl, rfl⟩
  | none => cases h
  | bool b => cases h
  | int n => cases h
  | list xs => cases h
  | dict kvs => cases h

theorem applyGroupClause_keeps {schema : Schema} {q : Query} {c : Py} {q' : Query}
    (h : applyGroupClause schema q c = .ok q') :
    q'.model = q.model ∧ q'.rows = q.rows ∧ q'.preds = q.preds ∧ q'.order = q.order := by
  cases c with
  | str s =>
    simp only [applyGroupClause, Res.bind_eq] at h
    split at h
    · rw [Res.bind_eq_ok] at h
      obtain ⟨fs, _, h⟩ := h
      obtain ⟨f1, f2⟩ := fs
      simp only [Res.bind_eq] at h
      rw [Res.bind_eq_ok] at h
      obtain ⟨rm, _, h⟩ := h
      rw [Res.bind_eq_ok] at h
      obtain ⟨fd, _, h⟩ := h
      cases h
      exact ⟨rfl, rfl, rfl, rfl⟩
    · rw [Res.bind_eq_ok] at h
      obtain ⟨fd, _, h⟩ := h
      cases h
      exact ⟨rfl, rfl, rfl, rfl⟩
  | none => cases h
  | bool b => cases h
  | int n => cases h
  | list xs => cases h
  | dict kvs => cases h

theorem pkClauses_eq {schema : Schema} {model : String} :
    ∀ {pks : List String} {cl : List OrderClause},
      resMapM (fun f => (getattrS schema model f).map
        (fun a => OrderClause.mk model a.name true)) pks = .ok cl →
      cl = pks.map (fun f => ⟨model, f, true⟩) := by
  intro pks
  induction pks with
  | nil => intro cl h; simp only [resMapM] at h; cases h; rfl
  | cons f fs ih =>
    intro cl h
    simp only [resMapM, Res.bind_eq, Res.pure_eq] at h
    rw [Res.bind_eq_ok] at h
    obtain ⟨c, hc, h⟩ := h
    rw [Res.bind_eq_ok] at h
    obtain ⟨cs, hcs, h⟩ := h
    cases h
    rw [Res.map_eq_ok] at hc
    obtain ⟨a, ha, hc⟩ := hc
    simp only [List.map_cons, ih hcs]
    rw [← hc, getattrS_name ha]

theorem create_query_shape {schema : Schema} {fuel : Nat} {session : Session}
    {model : String} {filters : List Py} {sort : List (Py × Py)} {group_by : List Py}
    {ig : Bool} {q : Query}
    (h : create_query schema fuel session model filters sort group_by ig = .ok q) :
    ∃ preds,
      (∃ filts, resMapM (from_dictionary model fuel) filters = .ok filts ∧
        resMapM (create_filter schema fuel model) filts = .ok preds) ∧
      q.model = model ∧ q.rows = (alistFind session model).getD [] ∧ q.preds = preds ∧
      (ig = true → q.order = []) ∧
      (ig = false → sort = [] →
        q.order = (primary_key_names schema model).map (fun f => OrderClause.mk model f true)) := by
  unfold create_query at h
  simp only [Res.bind_eq] at h
  rw [Res.bind_eq_ok] at h
  obtain ⟨filts, hfilts, h⟩ := h
  rw [Res.bind_eq_ok] at h
  obtain ⟨preds, hpreds, h⟩ := h
  refine ⟨preds, ⟨filts, hfilts, hpreds⟩, ?_⟩
  have groupKeep : ∀ {a q' : Query}, resFoldl (applyGroupClause schema) a group_by = .ok q' →
      q'.model = a.model ∧ q'.rows = a.rows ∧ q'.preds = a.preds ∧ q'.order = a.order := by
    intro a q' hx
    have := resFoldl_preserve
      (π := fun b => (b.model, b.rows, b.preds, b.order))
      (f := applyGroupClause schema)
      (fun b x b' hb => by
        obtain ⟨h1, h2, h3, h4⟩ := applyGroupClause_keeps hb
        simp [h1, h2, h3, h4])
      hx
    exact ⟨congrArg (fun p => p.1) this, congrArg (fun p => p.2.1) this,
      congrArg (fun p => p.2.2.1) this, congrArg (fun p => p.2.2.2) this⟩
  cases ig with
  | true =>
    simp only [Bool.not_true, Bool.false_eq_true, if_false, Res.bind_ok_left] at h
    obtain ⟨hm, hr, hp, ho⟩ := groupKeep h
    simp only [session_query] at hm hr hp ho
    refine ⟨hm, hr, by simpa using hp, ?_, ?_⟩
    · intro _
      simpa using ho
    · intro hfalse
      cases hfalse
  | false =>
    simp only [Bool.not_false, if_true] at h
    cases hs : sort.isEmpty with
    | false =>
      rw [hs] at h
      simp only [Bool.not_false, if_true] at h
      rw [Res.bind_eq_ok] at h
      obtain ⟨q1, hsort, hgroup⟩ := h
      obtain ⟨hm, hr, hp, _⟩ := groupKeep hgroup
      have sortKeep := resFoldl_preserve
        (π := fun b => (b.model, b.rows, b.preds))
        (f := applySortClause schema)
        (fun b x b' hb => by
          obtain ⟨h1, h2, h3⟩ := applySortClause_keeps hb
          simp [h1, h2, h3])
        hsort
      have hm1 := congrArg (fun p => p.1) sortKeep
      have hr1 := congrArg (fun p => p.2.1) sortKeep
      have hp1 := congrArg (fun p => p.2.2) sortKeep
      simp only [session_query] at hm1 hr1 hp1
      refine ⟨hm.trans hm1, hr.trans hr1, by simpa using hp.trans hp1, ?_, ?_⟩
      · intro hfalse
        cases hfalse
      · intro _ hnil
        rw [hnil] at hs
        cases hs
    | true =>
      rw [hs] at h
      simp only [Bool.not_true, Bool.false_eq_true, if_false] at h
      rw [Res.bind_eq_ok] at h
      obtain ⟨clauses, hcl, h⟩ := h
      simp only [Res.bind_ok_left] at h
      obtain ⟨hm, hr, hp, ho⟩ := groupKeep h
      simp only [session_query] at hm hr hp ho
      refine ⟨hm, hr, by simpa using hp, ?_, ?_⟩
      · intro hfalse
        cases hfalse
      · intro _ _
        rw [ho]
        simpa using pkClauses_eq hcl

/-! ## Pipeline lemmas for junction filters -/

theorem compileSpec_list {schema : Schema} {n : Nat} {model : String} :
    ∀ {subs : List Py}, (∀ s ∈ subs, (compileSpec schema n model s).isOk = true) →
    ∃ fss ps, resMapM (from_dictionary model n) subs = .ok fss ∧
      resMapM (create_filter schema n model) fss = .ok ps ∧
      List.Forall₂ (fun s p => compileSpec schema n model s = .ok p) subs ps := by
  intro subs
  induction subs with
  | nil => intro _; exact ⟨[], [], rfl, rfl, List.Forall₂.nil⟩
  | cons s subs ih =>
    intro h
    have hs := h s (by simp)
    unfold compileSpec at hs
    simp only [Res.bind_eq] at hs
    rw [Res.isOk_bind] at hs
    obtain ⟨fs, hfs, hcf⟩ := hs
    obtain ⟨p, hp⟩ := Res.isOk_iff.mp hcf
    obtain ⟨fss, ps, hfss, hps, hfa⟩ := ih (fun z hz => h z (by simp [hz]))
    refine ⟨fs :: fss, p :: ps, ?_, ?_, ?_⟩
    · simp [resMapM, hfs, hfss, Res.bind]
    · simp [resMapM, hp, hps, Res.bind]
    · exact List.Forall₂.cons (by unfold compileSpec; simp [hfs, hp]) hfa

theorem compileSpec_and {schema : Schema} {n : Nat} {model : String}
    {d : List (String × Py)} {subs : List Py}
    (hor : dcontains d "or" = false) (hand : dcontains d "and" = true)
    (hsub : dictGet d "and" = .list subs)
    (hok : ∀ s ∈ subs, (compileSpec schema n model s).isOk = true) :
    ∃ ps, compileSpec schema (n + 1) model (.dict d)
        = .ok (fun row => ps.all (fun p => p row)) ∧
      List.Forall₂ (fun s p => compileSpec schema n model s = .ok p) subs ps := by
  obtain ⟨fss, ps, hfss, hps, hfa⟩ := compileSpec_list hok
  refine ⟨ps, ?_, hfa⟩
  have hparse : from_dictionary model (n + 1) (.dict d) = .ok (.conj fss) := by
    simp only [from_dictionary, hor, hand, Bool.not_false, Bool.not_true,
      Bool.true_and, Bool.and_false, if_false]
    rw [hsub]
    simp [hfss]
  unfold compileSpec
  simp only [Res.bind_eq, hparse, Res.bind_ok_left]
  simp [create_filter, hps, Res.bind]

theorem compileSpec_or {schema : Schema} {n : Nat} {model : String}
    {d : List (String × Py)} {subs : List Py}
    (hor : dcontains d "or" = true)
    (hsub : dictGet d "or" = .list subs)
    (hok : ∀ s ∈ subs, (compileSpec schema n model s).isOk = true) :
    ∃ ps, compileSpec schema (n + 1) model (.dict d)
        = .ok (fun row => ps.any (fun p => p row)) ∧
      List.Forall₂ (fun s p => compileSpec schema n model s = .ok p) subs ps := by
  obtain ⟨fss, ps, hfss, hps, hfa⟩ := compileSpec_list hok
  refine ⟨ps, ?_, hfa⟩
  have hparse : from_dictionary model (n + 1) (.dict d) = .ok (.disj fss) := by
    simp only [from_dictionary, hor, Bool.not_true, Bool.false_and, Bool.and_false,
      if_false, if_true]
    rw [hsub]
    simp [hfss]
  unfold compileSpec
  simp only [Res.bind_eq, hparse, Res.bind_ok_left]
  simp [create_filter, hps, Res.bind]

/-! ## Concrete fixtures used by witnesses and counterexamples -/

/-- A small schema: a `person` model with scalar columns, a to-many
relationship `comments`, a to-one relationship `tag` whose target `tagm` has a
field named like the relation (for the legacy `has` form), and a plain
non-mapped attribute `extra`. -/
def S1 : Schema :=
  [("person", ⟨[("id", .column), ("age", .column), ("name", .column),
                ("comments", .relationship "comment"),
                ("tag", .relationship "tagm"),
                ("extra", .plain)], ["id"]⟩),
   ("comment", ⟨[("id", .column), ("content", .column),
                 ("author", .relationship "person")], ["id"]⟩),
   ("tagm", ⟨[("id", .column), ("tag", .column)], ["id"]⟩)]

def rowJohn : Py := .dict [("id", .int 1), ("age", .int 10), ("name", .str "John")]

def rowPaul : Py := .dict [("id", .int 2), ("age", .int 20), ("name", .str "Paul")]

def session1 : Session := [("person", [rowJohn, rowPaul])]

/-- Leaf filter specification `{"name": "age", "op": "ge", "val": 15}`. -/
def leafGe : Py := .dict [("name", .str "age"), ("op", .str "ge"), ("val", .int 15)]

/-- Leaf filter specification `{"name": "name", "op": "eq", "val": "John"}`. -/
def leafEq : Py := .dict [("name", .str "name"), ("op", .str "eq"), ("val", .str "John")]

/-- The query of a successful `create_query` result (an arbitrary empty query
otherwise); lets witnesses name the computed composed query. -/
def queryOf : Res Query → Query
  | .ok q => q
  | _ => { model := "", rows := [], preds := [], order := [], groups := [], joins := [] }

theorem compileSpec_eq_bind (schema : Schema) (fuel : Nat) (model : String) (p : Py) :
    compileSpec schema fuel model p
      = Res.bind (from_dictionary model fuel p) (create_filter schema fuel model) := rfl

/-- C1: for a filter-spec dictionary whose `and` (resp. `or`) key maps to a
sequence of N ≥ 1 sub-filter dictionaries that each compile, the parsed and
compiled junction predicate matches a row exactly when every (resp. at least
one) individually compiled child matches it — the intersection
(resp. union) of the children's match sets; and every query built by
`create_query` applies exactly the conjunction of the predicates compiled from
all top-level filter-spec list elements. -/
theorem C1_and_or_junctions_and_toplevel_conjunction
    (schema : Schema) (model : String) (n : Nat)
    (dA : List (String × Py)) (subsA : List Py)
    (dO : List (String × Py)) (subsO : List Py)
    (session : Session) (filters : List Py) (sort : List (Py × Py))
    (group_by : List Py) (ig : Bool) (q : Query)
    (hAor : dcontains dA "or" = false) (hAand : dcontains dA "and" = true)
    (hAsub : dictGet dA "and" = .list subsA) (hAne : subsA ≠ [])
    (hAok : ∀ s ∈ subsA, (compileSpec schema n model s).isOk = true)
    (hOor : dcontains dO "or" = true)
    (hOsub : dictGet dO "or" = .list subsO) (hOne : subsO ≠ [])
    (hOok : ∀ s ∈ subsO, (compileSpec schema n model s).isOk = true)
    (hq : create_query schema n session model filters sort group_by ig = .ok q) :
    ((compileSpec schema (n + 1) model (.dict dA)).isOk = true ∧
      ∀ row, predOf (compileSpec schema (n + 1) model (.dict dA)) row
        = subsA.all (fun s => predOf (compileSpec schema n model s) row)) ∧
    ((compileSpec schema (n + 1) model (.dict dO)).isOk = true ∧
      ∀ row, predOf (compileSpec schema (n + 1) model (.dict dO)) row
        = subsO.any (fun s => predOf (compileSpec schema n model s) row)) ∧
    (∀ row, q.sat row = filters.all (fun f => predOf (compileSpec schema n model f) row)) := by
  refine ⟨?_, ?_, ?_⟩
  · obtain ⟨ps, hcomp, hfa⟩ := compileSpec_and hAor hAand hAsub hAok
    refine ⟨by rw [hcomp]; rfl, ?_⟩
    intro row
    rw [hcomp]
    simpa [predOf] using all_of_forall₂ hfa row
  · obtain ⟨ps, hcomp, hfa⟩ := compileSpec_or hOor hOsub hOok
    refine ⟨by rw [hcomp]; rfl, ?_⟩
    intro row
    rw [hcomp]
    simpa [predOf] using any_of_forall₂ hfa row
  · obtain ⟨preds, ⟨filts, hf, hp⟩, _, _, hpreds, _, _⟩ := create_query_shape hq
    have hfa := forall₂_of_two_mapM hf hp
    have hfa' : List.Forall₂
        (fun s p => compileSpec schema n model s = .ok p) filters preds :=
      hfa.imp (fun a b hab => by rw [compileSpec_eq_bind]; exact hab)
    intro row
    unfold Query.sat
    rw [hpreds]
    exact all_of_forall₂ hfa' row

/-- C1 witness: a two-leaf `and` junction, a two-leaf `or` junction, and a
one-filter `create_query` call over the concrete schema and session. -/
theorem C1_witness :
    ((compileSpec S1 3 "person" (.dict [("and", .list [leafGe, leafEq])])).isOk = true ∧
      ∀ row, predOf (compileSpec S1 3 "person" (.dict [("and", .list [leafGe, leafEq])])) row
        = [leafGe, leafEq].all (fun s => predOf (compileSpec S1 2 "person" s) row)) ∧
    ((compileSpec S1 3 "person" (.dict [("or", .list [leafGe, leafEq])])).isOk = true ∧
      ∀ row, predOf (compileSpec S1 3 "person" (.dict [("or", .list [leafGe, leafEq])])) row
        = [leafGe, leafEq].any (fun s => predOf (compileSpec S1 2 "person" s) row)) ∧
    (∀ row, (queryOf (create_query S1 2 session1 "person" [leafGe] [] [] false)).sat row
      = [leafGe].all (fun f => predOf (compileSpec S1 2 "person" f) row)) :=
  C1_and_or_junctions_and_toplevel_conjunction S1 "person" 2
    [("and", .list [leafGe, leafEq])] [leafGe, leafEq]
    [("or", .list [leafGe, leafEq])] [leafGe, leafEq]
    session1 [leafGe] [] [] false
    (queryOf (create_query S1 2 session1 "person" [leafGe] [] [] false))
    rfl rfl rfl (List.cons_ne_nil _ _) (by decide)
    rfl rfl (List.cons_ne_nil _ _) (by decide) rfl

/-- C2: compiling any binary operator against a field that resolves, with the
null value as argument, fails with the dedicated `ComparisonToNull`; compiling
`is_null` (resp. `is_not_null`) with no argument supplied succeeds and yields
the `IS NULL` (resp. `IS NOT NULL`) predicate on that field. -/
theorem C2_comparison_to_null_guard
    (schema : Schema) (n : Nat) (model : String) (fname : Py) (attr : Attrib)
    (op : String) (sem : Py → Py → Bool)
    (hop : opLookup (.str op) = .ok (.binary sem))
    (hf : getattrPy schema model fname = .ok attr) :
    create_operation schema (n + 1) model fname (.str op) (.py .none) .none
        = .err .comparisonToNull ∧
    (∃ p, create_operation schema (n + 1) model fname (.str "is_null") (.py .none) .none
        = .ok p ∧ ∀ row, p row = pyEq (rowGet row attr.name) .none) ∧
    (∃ p, create_operation schema (n + 1) model fname (.str "is_not_null") (.py .none) .none
        = .ok p ∧ ∀ row, p row = !pyEq (rowGet row attr.name) .none) := by
  have hrel : (if pyTruthy Py.none then Py.none else fname) = fname := by
    simp [pyTruthy]
  refine ⟨?_, ?_, ?_⟩
  · simp only [create_operation, Res.bind_eq, hop, Res.bind_ok_left, hrel, hf]
    rfl
  · refine ⟨_, ?_, fun row => rfl⟩
    have hil : opLookup (.str "is_null") = .ok (.unary (fun f => sqlEqSem f .none)) := rfl
    simp only [create_operation, Res.bind_eq, hil, Res.bind_ok_left, hrel, hf]
    rfl
  · refine ⟨fun row => sqlNeSem (rowGet row attr.name) .none, ?_, fun row => ?_⟩
    · have hil : opLookup (.str "is_not_null") = .ok (.unary (fun f => sqlNeSem f .none)) := rfl
      simp only [create_operation, Res.bind_eq, hil, Res.bind_ok_left, hrel, hf]
      rfl
    · simp [sqlNeSem, pyEq]

/-- C2 witness: the `eq` operator against the `age` column of the concrete
schema. -/
theorem C2_witness :
    create_operation S1 2 "person" (.str "age") (.str "eq") (.py .none) .none
        = .err .comparisonToNull ∧
    (∃ p, create_operation S1 2 "person" (.str "age") (.str "is_null") (.py .none) .none
        = .ok p ∧ ∀ row, p row = pyEq (rowGet row "age") .none) ∧
    (∃ p, create_operation S1 2 "person" (.str "age") (.str "is_not_null") (.py .none) .none
        = .ok p ∧ ∀ row, p row = !pyEq (rowGet row "age") .none) :=
  C2_comparison_to_null_guard S1 1 "person" (.str "age") ⟨"age", .column⟩
    "eq" sqlEqSem rfl rfl

/-! ## Operator synonym groups -/

/-- The synonym groups named by the claim: every member of a group maps to the
same canonical comparison. -/
def synonymGroups : List (List String) :=
  [["==", "eq", "equals", "equal_to"],
   ["!=", "ne", "neq", "not_equal_to", "does_not_equal"],
   [">", "gt"],
   ["<", "lt"],
   [">=", "ge", "gte", "geq"],
   ["<=", "le", "lte", "leq"]]

theorem create_operation_congr_op {schema : Schema} {n : Nat} {model : String}
    {fieldname : Py} {op1 op2 : Py} {argument : Arg} {relation : Py}
    (h : opLookup op1 = opLookup op2) :
    create_operation schema n model fieldname op1 argument relation
      = create_operation schema n model fieldname op2 argument relation := by
  cases n with
  | zero => rfl
  | succ n =>
    simp only [create_operation, Res.bind_eq]
    rw [h]

theorem synonym_lookup_eq :
    ∀ g ∈ synonymGroups, ∀ o1 ∈ g, ∀ o2 ∈ g,
      opLookup (.str o1) = opLookup (.str o2) := by
  intro g hg
  fin_cases hg <;>
    (intro o1 h1 o2 h2; fin_cases h1 <;> fin_cases h2 <;> rfl)

/-- C3: compiling a leaf operation with any synonym of a recognized operator
group produces exactly the same result (and in particular a predicate with
identical matching semantics) as compiling it with any other synonym of the
same group, for every field, argument and relation. -/
theorem C3_operator_synonyms_equivalent
    (g : List String) (hg : g ∈ synonymGroups)
    (o1 : String) (h1 : o1 ∈ g) (o2 : String) (h2 : o2 ∈ g)
    (schema : Schema) (n : Nat) (model : String)
    (fieldname : Py) (argument : Arg) (relation : Py) :
    create_operation schema n model fieldname (.str o1) argument relation
      = create_operation schema n model fieldname (.str o2) argument relation ∧
    ∀ row, predOf (create_operation schema n model fieldname (.str o1) argument relation) row
      = predOf (create_operation schema n model fieldname (.str o2) argument relation) row := by
  have h := @create_operation_congr_op schema n model fieldname
    (.str o1) (.str o2) argument relation
    (synonym_lookup_eq g hg o1 h1 o2 h2)
  exact ⟨h, fun row => by rw [h]⟩

/-- C3 witness: `==` and `equals` on the `age` column with argument `5`. -/
theorem C3_witness :
    create_operation S1 2 "person" (.str "age") (.str "==") (.py (.int 5)) .none
      = create_operation S1 2 "person" (.str "age") (.str "equals") (.py (.int 5)) .none ∧
    ∀ row, predOf (create_operation S1 2 "person" (.str "age") (.str "==") (.py (.int 5)) .none) row
      = predOf (create_operation S1 2 "person" (.str "age") (.str "equals") (.py (.int 5)) .none) row :=
  C3_operator_synonyms_equivalent ["==", "eq", "equals", "equal_to"] (by simp [synonymGroups])
    "==" (by simp) "equals" (by simp)
    S1 2 "person" (.str "age") (.py (.int 5)) .none

/-- C4: when ordering is not suppressed and no sort is requested, the composed
query carries exactly one ascending ordering clause per primary-key column of
the model, in primary-key-declaration order; when the suppress-ordering flag
is set, the composed query carries no ordering clause at all, whatever the
sort parameter was. -/
theorem C4_default_ordering_and_suppression
    (schema : Schema) (n : Nat) (session : Session) (model : String)
    (filters : List Py) (sort : List (Py × Py)) (group_by : List Py)
    (q qs : Query)
    (hq : create_query schema n session model filters [] group_by false = .ok q)
    (hqs : create_query schema n session model filters sort group_by true = .ok qs) :
    q.order = (primary_key_names schema model).map (fun f => OrderClause.mk model f true) ∧
    qs.order = [] := by
  obtain ⟨_, _, _, _, _, _, hdef⟩ := create_query_shape hq
  obtain ⟨_, _, _, _, _, hsup, _⟩ := create_query_shape hqs
  exact ⟨hdef rfl rfl, hsup rfl⟩

/-- C4 witness: the concrete schema and session, with an explicit sort handed
to the suppressed call. -/
theorem C4_witness :
    (queryOf (create_query S1 2 session1 "person" [leafGe] [] [] false)).order
      = (primary_key_names S1 "person").map (fun f => OrderClause.mk "person" f true) ∧
    (queryOf (create_query S1 2 session1 "person" [leafGe]
        [(Py.str "+", Py.str "age")] [] true)).order = [] :=
  C4_default_ordering_and_suppression S1 2 session1 "person" [leafGe]
    [(Py.str "+", Py.str "age")] []
    (queryOf (create_query S1 2 session1 "person" [leafGe] [] [] false))
    (queryOf (create_query S1 2 session1 "person" [leafGe]
        [(Py.str "+", Py.str "age")] [] true))
    rfl rfl

/-- C5: in single-result mode, `search` materializes through `.one()`: it
fails with `NoResultFound` when the composed query matches no row, returns the
entity when it matches exactly one, and fails with `MultipleResultsFound` when
it matches two or more; without single-result mode it returns the composed
query itself (the full ordered, not-yet-materialized result sequence). -/
theorem C5_single_result_modes
    (schema : Schema) (n : Nat) (session : Session) (model : String)
    (filters : List Py) (sort : List (Py × Py)) (group_by : List Py)
    (ig : Bool) (q : Query)
    (hq : create_query schema n session model filters sort group_by ig = .ok q) :
    (search schema n session model filters sort group_by true ig
      = match q.results with
        | [] => .err .noResultFound
        | [r] => .ok (.entity r)
        | _ :: _ :: _ => .err .multipleResultsFound) ∧
    search schema n session model filters sort group_by false ig = .ok (.query q) := by
  constructor
  · unfold search
    simp only [Res.bind_eq, hq, Res.bind_ok_left, if_true]
    unfold Query.one
    cases hres : q.results with
    | nil => rfl
    | cons r t =>
      cases t with
      | nil => rfl
      | cons r2 rest => rfl
  · unfold search
    simp only [Res.bind_eq, hq, Res.bind_ok_left, Bool.false_eq_true, if_false]
    rfl

/-- C5 witness: with no filters both session rows match, so single-result mode
fails with the multiple-results error, and non-single mode returns the
composed query. -/
theorem C5_witness :
    search S1 2 session1 "person" [] [] [] true false = .err .multipleResultsFound ∧
    search S1 2 session1 "person" [] [] [] false false
      = .ok (.query (queryOf (create_query S1 2 session1 "person" [] [] [] false))) :=
  C5_single_result_modes S1 2 session1 "person" [] [] [] false
    (queryOf (create_query S1 2 session1 "person" [] [] [] false)) rfl

/-- Whether a Python value is a dictionary (`isinstance(x, dict)`). -/
def pyIsDict : Py → Bool
  | .dict _ => true
  | _ => false

theorem sub_operator_legacy {schema : Schema} {n : Nat} {aname t : String}
    {tk : AttrKind} (htk : tk = .relationship t ∨ tk = .assocProxy t)
    {fname v : Py} {rattr : Attrib}
    (hv : pyIsDict v = false)
    (hratt : getattrPy schema t fname = .ok rattr) :
    sub_operator schema (create_operation schema n) ⟨aname, tk⟩ (.py v) fname
      = .ok (fun row => pyEq (rowGet row rattr.name) v) := by
  rcases htk with rfl | rfl <;>
    (cases v <;> simp_all [sub_operator, pyIsDict, Res.bind] <;> rfl)

theorem sub_operator_dict_core {schema : Schema} {n : Nat} {aname t : String}
    {tk : AttrKind} (htk : tk = .relationship t ∨ tk = .assocProxy t)
    {fname : Py} {dd : List (String × Py)} {nmv opv : Py}
    (hnm : dictGetStrict dd "name" = .ok nmv)
    (hop : dictGetStrict dd "op" = .ok opv)
    (hnd : pyContainsDunder nmv = .ok false) :
    sub_operator schema (create_operation schema n) ⟨aname, tk⟩ (.py (.dict dd)) fname
      = create_operation schema n t nmv opv (.py (dictGet dd "val")) .none := by
  rcases htk with rfl | rfl <;>
    simp [sub_operator, Res.bind, hnm, hop, hnd]

theorem sub_operator_dict_dunder {schema : Schema} {n : Nat} {aname t : String}
    {tk : AttrKind} (htk : tk = .relationship t ∨ tk = .assocProxy t)
    {fname : Py} {dd : List (String × Py)} {nm2 : String} {opv : Py} {f2 r2 : String}
    (hnm : dictGetStrict dd "name" = .ok (.str nm2))
    (hop : dictGetStrict dd "op" = .ok opv)
    (hcd : strContains nm2 "__" = true)
    (hsplit : splitDunder nm2 = [f2, r2]) :
    sub_operator schema (create_operation schema n) ⟨aname, tk⟩ (.py (.dict dd)) fname
      = create_operation schema n t (.str f2) opv (.py (dictGet dd "val")) (.str r2) := by
  rcases htk with rfl | rfl <;>
    simp [sub_operator, Res.bind, hnm, hop, pyContainsDunder, hcd, pySplitDunder,
      hsplit, unpack2]

theorem create_operation_has_legacy {schema : Schema} {n : Nat} {model : String}
    {fname v : Py} {aname t : String} {tk : AttrKind}
    (htk : tk = .relationship t ∨ tk = .assocProxy t) {rattr : Attrib}
    (hattr : getattrPy schema model fname = .ok ⟨aname, tk⟩)
    (hv : pyIsDict v = false) (hvn : argIsNone (.py v) = false)
    (hratt : getattrPy schema t fname = .ok rattr) :
    ∃ p, create_operation schema (n + 1) model fname (.str "has") (.py v) .none = .ok p ∧
      (∀ row kvs, rowGet row aname = .dict kvs →
        p row = pyEq (rowGet (.dict kvs) rattr.name) v) ∧
      (∀ row, pyIsDict (rowGet row aname) = false → p row = false) := by
  have hsub := @sub_operator_legacy schema n aname t tk htk fname v rattr hv hratt
  have hhas : opLookup (.str "has") = .ok .hasOp := rfl
  have hrel : (if pyTruthy Py.none then Py.none else fname) = fname := by simp [pyTruthy]
  have heq : create_operation schema (n + 1) model fname (.str "has") (.py v) .none
      = .ok (fun row => match rowGet row aname with
          | .dict kvs => pyEq (rowGet (.dict kvs) rattr.name) v
          | _ => false) := by
    simp only [create_operation, Res.bind_eq, hhas, Res.bind_ok_left, hrel, hattr,
      hvn, Bool.false_eq_true, if_false, hsub]
    rfl
  refine ⟨_, heq, ?_, ?_⟩
  · intro row kvs hk
    simp only [hk]
  · intro row hnd
    cases hx : rowGet row aname with
    | dict kvs => rw [hx] at hnd; cases hnd
    | none => simp [hx]
    | bool b => simp [hx]
    | int m => simp [hx]
    | str s => simp [hx]
    | list xs => simp [hx]

/-- C6: inside a `has`/`any` filter on a relation-valued field, a bare scalar
sub-filter argument compiles to the legacy nested predicate "the related
entity's field named exactly like the outer filter's field equals the scalar"
(shown both at the nested-predicate level and through the enclosing `has`
operation); a dictionary argument is instead parsed recursively as a filter
against the related model, with its `name` split on the `'__'` delimiter into
field and relation when present. -/
theorem C6_has_any_scalar_and_dict_subfilters
    (schema : Schema) (n : Nat) (aname t : String) (tk : AttrKind)
    (htk : tk = .relationship t ∨ tk = .assocProxy t)
    (fname : Py) (v : Py) (rattr : Attrib)
    (hv : pyIsDict v = false)
    (hratt : getattrPy schema t fname = .ok rattr)
    (model : String)
    (hattr : getattrPy schema model fname = .ok ⟨aname, tk⟩)
    (hvn : argIsNone (.py v) = false)
    (dd : List (String × Py)) (nmv opv : Py)
    (hnm : dictGetStrict dd "name" = .ok nmv)
    (hop2 : dictGetStrict dd "op" = .ok opv)
    (hnd : pyContainsDunder nmv = .ok false)
    (dd2 : List (String × Py)) (nm2 : String) (opv2 : Py) (f2 r2 : String)
    (hnm2 : dictGetStrict dd2 "name" = .ok (.str nm2))
    (hop3 : dictGetStrict dd2 "op" = .ok opv2)
    (hcd : strContains nm2 "__" = true)
    (hsplit : splitDunder nm2 = [f2, r2]) :
    (∃ s, fname = .str s ∧ rattr.name = s) ∧
    (sub_operator schema (create_operation schema n) ⟨aname, tk⟩ (.py v) fname
      = .ok (fun row => pyEq (rowGet row rattr.name) v)) ∧
    (∃ p, create_operation schema (n + 1) model fname (.str "has") (.py v) .none = .ok p ∧
      (∀ row kvs, rowGet row aname = .dict kvs →
        p row = pyEq (rowGet (.dict kvs) rattr.name) v) ∧
      (∀ row, pyIsDict (rowGet row aname) = false → p row = false)) ∧
    (sub_operator schema (create_operation schema n) ⟨aname, tk⟩ (.py (.dict dd)) fname
      = create_operation schema n t nmv opv (.py (dictGet dd "val")) .none) ∧
    (sub_operator schema (create_operation schema n) ⟨aname, tk⟩ (.py (.dict dd2)) fname
      = create_operation schema n t (.str f2) opv2 (.py (dictGet dd2 "val")) (.str r2)) := by
  refine ⟨?_, sub_operator_legacy htk hv hratt,
    create_operation_has_legacy htk hattr hv hvn hratt,
    sub_operator_dict_core htk hnm hop2 hnd,
    sub_operator_dict_dunder htk hnm2 hop3 hcd hsplit⟩
  cases fname with
  | str s => exact ⟨s, rfl, getattrS_name hratt⟩
  | none => cases hratt
  | bool b => cases hratt
  | int m => cases hratt
  | list xs => cases hratt
  | dict kvs => cases hratt

/-- C6 witness: the `person.tag` to-one relation whose target model `tagm` has
an identically-named column `tag`; a scalar sub-filter, a plain dictionary
sub-filter, and a `'__'`-qualified dictionary sub-filter. -/
theorem C6_witness :
    (∃ s, (Py.str "tag") = .str s ∧ (Attrib.mk "tag" .column).name = s) ∧
    (sub_operator S1 (create_operation S1 2) ⟨"tag", .relationship "tagm"⟩
        (.py (.int 9)) (.str "tag")
      = .ok (fun row => pyEq (rowGet row (Attrib.mk "tag" .column).name) (.int 9))) ∧
    (∃ p, create_operation S1 3 "person" (.str "tag") (.str "has") (.py (.int 9)) .none
        = .ok p ∧
      (∀ row kvs, rowGet row "tag" = .dict kvs →
        p row = pyEq (rowGet (.dict kvs) (Attrib.mk "tag" .column).name) (.int 9)) ∧
      (∀ row, pyIsDict (rowGet row "tag") = false → p row = false)) ∧
    (sub_operator S1 (create_operation S1 2) ⟨"tag", .relationship "tagm"⟩
        (.py (.dict [("name", .str "id"), ("op", .str "eq"), ("val", .int 3)])) (.str "tag")
      = create_operation S1 2 "tagm" (.str "id") (.str "eq")
          (.py (dictGet [("name", .str "id"), ("op", .str "eq"), ("val", .int 3)] "val"))
          .none) ∧
    (sub_operator S1 (create_operation S1 2) ⟨"tag", .relationship "tagm"⟩
        (.py (.dict [("name", .str "author__id"), ("op", .str "eq"), ("val", .int 3)]))
        (.str "tag")
      = create_operation S1 2 "tagm" (.str "author") (.str "eq")
          (.py (dictGet [("name", .str "author__id"), ("op", .str "eq"), ("val", .int 3)] "val"))
          (.str "id")) :=
  C6_has_any_scalar_and_dict_subfilters S1 2 "tag" "tagm" (.relationship "tagm")
    (Or.inl rfl) (.str "tag") (.int 9) ⟨"tag", .column⟩ rfl rfl
    "person" rfl rfl
    [("name", .str "id"), ("op", .str "eq"), ("val", .int 3)] (.str "id") (.str "eq")
    rfl rfl rfl
    [("name", .str "author__id"), ("op", .str "eq"), ("val", .int 3)] "author__id"
    (.str "eq") "author" "id" rfl rfl (by decide) (by decide)

/-- C7 counterexample: the claim says supplying an argument to the unary
`is_null` operator makes compilation fail with an arity error, but the source
returns the unary predicate before ever looking at the argument, so this
concrete compilation succeeds. -/
theorem C7_counterexample :
    (create_operation S1 2 "person" (.str "age") (.str "is_null")
      (.py (.int 5)) .none).isOk = true := rfl

/-- C7 amended: a unary operator applied to a resolvable field compiles
successfully whatever the supplied argument is — the argument is silently
ignored, the resulting predicate does not depend on it (so in particular
compilation succeeds with no argument); omitting the argument of a binary
operator fails, with `ComparisonToNull`, which is an error distinct from the
unknown-operator `KeyError`. -/
theorem C7_amended_unary_ignores_argument
    (schema : Schema) (n : Nat) (model : String) (fname : Py) (attr : Attrib)
    (op : String) (usem : Py → Bool) (bop : String) (bsem : Py → Py → Bool)
    (hu : opLookup (.str op) = .ok (.unary usem))
    (hb : opLookup (.str bop) = .ok (.binary bsem))
    (hf : getattrPy schema model fname = .ok attr) :
    (∀ argument, create_operation schema (n + 1) model fname (.str op) argument .none
      = .ok (fun row => usem (rowGet row attr.name))) ∧
    (create_operation schema (n + 1) model fname (.str bop) (.py .none) .none
      = .err .comparisonToNull) ∧
    (∀ k, (PyError.comparisonToNull = PyError.keyError k) → False) := by
  have hrel : (if pyTruthy Py.none then Py.none else fname) = fname := by simp [pyTruthy]
  refine ⟨?_, ?_, ?_⟩
  · intro argument
    simp only [create_operation, Res.bind_eq, hu, Res.bind_ok_left, hrel, hf]
    rfl
  · simp only [create_operation, Res.bind_eq, hb, Res.bind_ok_left, hrel, hf]
    rfl
  · intro k h
    cases h

/-- C7 witness: `is_null` with the argument `5` and with no argument on the
`age` column, and `eq` with no argument. -/
theorem C7_witness :
    (∀ argument, create_operation S1 2 "person" (.str "age") (.str "is_null") argument .none
      = .ok (fun row => (fun f => sqlEqSem f .none) (rowGet row (Attrib.mk "age" .column).name))) ∧
    (create_operation S1 2 "person" (.str "age") (.str "eq") (.py .none) .none
      = .err .comparisonToNull) ∧
    (∀ k, (PyError.comparisonToNull = PyError.keyError k) → False) :=
  C7_amended_unary_ignores_argument S1 1 "person" (.str "age") ⟨"age", .column⟩
    "is_null" (fun f => sqlEqSem f .none) "eq" sqlEqSem rfl rfl rfl

theorem dictGet_of_not_contains {kvs : List (String × Py)} {k : String}
    (h : dcontains kvs k = false) : dictGet kvs k = .none := by
  unfold dcontains at h
  unfold dictGet
  cases hf : alistFind kvs k with
  | none => rfl
  | some v => rw [hf] at h; cases h

/-- C8 counterexample: a filter-spec dictionary containing both an `"and"` and
an `"or"` key is claimed to fail with a malformed-filter error, but the source
parses it without any error (as a disjunction, `'or'` being checked first). -/
theorem C8_counterexample :
    (from_dictionary "person" 2
      (.dict [("or", .list [leafGe]), ("and", .list [leafEq])])).isOk = true := rfl

/-- C8 amended: no dedicated malformed-filter error exists.  A dictionary with
both `"and"` and `"or"` keys is parsed as a disjunction of the `"or"` list
(`'or'` takes precedence) with no error; a leaf missing `"name"` parses
successfully and only fails later, during compilation, with the generic
`TypeError` from testing `'__' in None`; a leaf missing `"op"` parses
successfully and fails during compilation with the unknown-operator
`KeyError(None)`. -/
theorem C8_amended_no_malformed_filter_error
    (schema : Schema) (model : String) (n : Nat)
    (d1 : List (String × Py)) (subs1 : List Py)
    (d2 : List (String × Py)) (d3 : List (String × Py)) (s3 : String)
    (h1or : dcontains d1 "or" = true)
    (h1sub : dictGet d1 "or" = .list subs1)
    (h1ok : ∀ s ∈ subs1, (from_dictionary model n s).isOk = true)
    (h2or : dcontains d2 "or" = false) (h2and : dcontains d2 "and" = false)
    (h2nm : dcontains d2 "name" = false)
    (h3or : dcontains d3 "or" = false) (h3and : dcontains d3 "and" = false)
    (h3op : dcontains d3 "op" = false)
    (h3nm : dictGet d3 "name" = .str s3)
    (h3nd : strContains s3 "__" = false)
    (h3f : pyTruthy (dictGet d3 "field") = false) :
    (∃ fs, from_dictionary model (n + 1) (.dict d1) = .ok (.disj fs)) ∧
    compileSpec schema (n + 1) model (.dict d2) = .err .typeError ∧
    compileSpec schema (n + 2) model (.dict d3) = .err (.keyError .none) := by
  refine ⟨?_, ?_, ?_⟩
  · obtain ⟨fs, hfs⟩ := resMapM_ok_of_forall h1ok
    refine ⟨fs, ?_⟩
    simp only [from_dictionary, h1or, Bool.not_true, Bool.false_and, if_false, if_true]
    rw [h1sub]
    simp [hfs]
  · have hparse : from_dictionary model (n + 1) (.dict d2)
        = .ok (.filt .none (dictGet d2 "op") (dictGet d2 "val") (dictGet d2 "field")) := by
      simp only [from_dictionary, h2or, h2and, Bool.not_false, Bool.and_self, if_true]
      rw [dictGet_of_not_contains h2nm]
      rfl
    unfold compileSpec
    simp only [Res.bind_eq, hparse, Res.bind_ok_left]
    simp [create_filter, pyContainsDunder, Res.bind]
  · have hparse : from_dictionary model (n + 2) (.dict d3)
        = .ok (.filt (.str s3) .none (dictGet d3 "val") (dictGet d3 "field")) := by
      simp only [from_dictionary, h3or, h3and, Bool.not_false, Bool.and_self, if_true]
      rw [dictGet_of_not_contains h3op, h3nm]
      rfl
    unfold compileSpec
    simp only [Res.bind_eq, hparse, Res.bind_ok_left]
    simp only [create_filter, Res.bind_eq, pyContainsDunder, h3nd, Res.bind_ok_left,
      Bool.false_eq_true, if_false, h3f]
    rfl

/-- C8 witness: a dictionary with both junction keys, a leaf with no `name`,
and a leaf with a `name` but no `op`. -/
theorem C8_witness :
    (∃ fs, from_dictionary "person" 2
      (.dict [("or", .list [leafGe]), ("and", .list [leafEq])]) = .ok (.disj fs)) ∧
    compileSpec S1 2 "person" (.dict [("op", .str "eq"), ("val", .int 1)])
      = .err .typeError ∧
    compileSpec S1 3 "person" (.dict [("name", .str "age"), ("val", .int 1)])
      = .err (.keyError .none) :=
  C8_amended_no_malformed_filter_error S1 "person" 1
    [("or", .list [leafGe]), ("and", .list [leafEq])] [leafGe]
    [("op", .str "eq"), ("val", .int 1)]
    [("name", .str "age"), ("val", .int 1)] "age"
    rfl rfl (by decide) rfl rfl rfl rfl rfl rfl rfl rfl rfl

/-- C9 counterexample: a junction filter-spec whose `"and"` key maps to an
empty sequence is claimed to be rejected with an error, but the full
parse/compile pipeline accepts it and produces a composed query. -/
theorem C9_counterexample :
    (create_query S1 2 session1 "person" [.dict [("and", .list [])]]
      [] [] false).isOk = true := rfl

/-- C9 amended: an empty junction is not rejected anywhere in the pipeline:
an empty `"and"` list parses to a junction filter with no children and
compiles to the empty conjunction, the predicate true of every row, and an
empty `"or"` list likewise parses and compiles without error. -/
theorem C9_amended_empty_junction_accepted
    (schema : Schema) (n : Nat) (model : String)
    (d dO : List (String × Py))
    (hand : dcontains d "and" = true) (hor : dcontains d "or" = false)
    (hsub : dictGet d "and" = .list [])
    (hOor : dcontains dO "or" = true) (hOsub : dictGet dO "or" = .list []) :
    (∃ p, compileSpec schema (n + 1) model (.dict d) = .ok p ∧ ∀ row, p row = true) ∧
    (compileSpec schema (n + 1) model (.dict dO)).isOk = true := by
  constructor
  · obtain ⟨ps, hcomp, hfa⟩ := compileSpec_and hor hand hsub (by intro s hs; cases hs)
    cases hfa
    exact ⟨_, hcomp, fun row => rfl⟩
  · obtain ⟨ps, hcomp, hfa⟩ := compileSpec_or hOor hOsub (by intro s hs; cases hs)
    rw [hcomp]
    rfl

/-- C9 witness: the concrete empty `and` and empty `or` junctions. -/
theorem C9_witness :
    (∃ p, compileSpec S1 2 "person" (.dict [("and", .list [])]) = .ok p ∧
      ∀ row, p row = true) ∧
    (compileSpec S1 2 "person" (.dict [("or", .list [])])).isOk = true :=
  C9_amended_empty_junction_accepted S1 1 "person"
    [("and", .list [])] [("or", .list [])] rfl rfl rfl rfl rfl

/-- C10 counterexample: for a `has` filter on a plain column the claim says
the sub-operator's classification falls through, leaving the related model
undefined, and compilation aborts with an undefined-name error; but a plain
column is an `InstrumentedAttribute`, so the source takes the instrumented
branch and instead aborts with `AttributeError('mapper')` (the column property
has no mapper), which is not the undefined-name error. -/
theorem C10_counterexample :
    create_operation S1 2 "person" (.str "age") (.str "has") (.py (.int 1)) .none
      = .err (.attributeError "mapper") ∧
    ((PyError.attributeError "mapper" = PyError.nameError) → False) :=
  ⟨rfl, fun h => by cases h⟩

/-- C10 amended: the classification of `_sub_operator` falls through with the
related model left undefined only for fields that are neither
`InstrumentedAttribute`s (columns and relationships both are) nor association
proxies — e.g. plain non-mapped attributes — and there compilation of a `has`
or `any` filter aborts with the undefined-name (`UnboundLocalError`) error;
a plain column instead takes the instrumented branch and aborts with
`AttributeError('mapper')`.  Both are unhandled errors outside the spec's
error taxonomy. -/
theorem C10_amended_sub_operator_fallthrough
    (schema : Schema) (n : Nat) (model : String)
    (fname fname2 : Py) (s s2 : String) (op : String) (v : Py) (arg : Arg)
    (hop : opLookup (.str op) = .ok .hasOp ∨ opLookup (.str op) = .ok .anyOp)
    (hplain : getattrPy schema model fname = .ok ⟨s, .plain⟩)
    (hvd : pyIsDict v = false) (hvn : argIsNone (.py v) = false)
    (hcol : getattrPy schema model fname2 = .ok ⟨s2, .column⟩)
    (hargn : argIsNone arg = false) :
    create_operation schema (n + 1) model fname (.str op) (.py v) .none
      = .err .nameError ∧
    create_operation schema (n + 1) model fname2 (.str op) arg .none
      = .err (.attributeError "mapper") := by
  have hrel : ∀ f : Py, (if pyTruthy Py.none then Py.none else f) = f := by
    intro f; simp [pyTruthy]
  have hsubPlain : sub_operator schema (create_operation schema n)
      ⟨s, .plain⟩ (.py v) fname = .err .nameError := by
    cases v <;> simp_all [sub_operator, pyIsDict, Res.bind]
  have hsubCol : sub_operator schema (create_operation schema n)
      ⟨s2, .column⟩ arg fname2 = .err (.attributeError "mapper") := by
    simp [sub_operator, Res.bind]
  rcases hop with hop | hop <;>
    exact ⟨by simp only [create_operation, Res.bind_eq, hop, Res.bind_ok_left,
              hrel, hplain, hvn, Bool.false_eq_true, if_false, hsubPlain]; rfl,
           by simp only [create_operation, Res.bind_eq, hop, Res.bind_ok_left,
              hrel, hcol, hargn, Bool.false_eq_true, if_false, hsubCol]; rfl⟩

/-- C10 witness: a `has` filter on the plain attribute `extra` and on the
column `age` of the concrete schema. -/
theorem C10_witness :
    create_operation S1 2 "person" (.str "extra") (.str "has") (.py (.int 1)) .none
      = .err .nameError ∧
    create_operation S1 2 "person" (.str "age") (.str "has") (.py (.int 1)) .none
      = .err (.attributeError "mapper") :=
  C10_amended_sub_operator_fallthrough S1 1 "person" (.str "extra") (.str "age")
    "extra" "age" "has" (.int 1) (.py (.int 1))
    (Or.inl rfl) rfl rfl rfl rfl rfl
